/- Verification of the UltraSQL storage/transaction kernel specification
   against a shallow embedding of the Go source.

   The embedding models bytes as natural numbers below 256 inside lists,
   Go int / int64 as Int (no overflow occurs at the sizes involved; where
   Go converts to uint32/uint64 the conversion is modelled explicitly with
   mod 2^32 / mod 2^64), Go maps as association lists, Go errors as
   inductive values, and fallible operations as Option / sum results.
   Each definition is translated from the named Go function. -/
import Mathlib

namespace UltraSQL

/-! Big-endian byte encodings, as produced by encoding/binary with
    binary.BigEndian. -/

def be32 (n : Nat) : List Nat :=
  [n / 2 ^ 24 % 256, n / 2 ^ 16 % 256, n / 2 ^ 8 % 256, n % 256]

def be64 (n : Nat) : List Nat :=
  [n / 2 ^ 56 % 256, n / 2 ^ 48 % 256, n / 2 ^ 40 % 256, n / 2 ^ 32 % 256,
   n / 2 ^ 24 % 256, n / 2 ^ 16 % 256, n / 2 ^ 8 % 256, n % 256]

def beVal (l : List Nat) : Nat :=
  l.foldl (fun a b => a * 256 + b) 0

/-- Go conversion uint32(v) for v : int64/int. -/
def u32ofInt (v : Int) : Nat := (v % (2 ^ 32 : Int)).toNat

/-- Go conversion uint64(v) for v : int64/int. -/
def u64ofInt (v : Int) : Nat := (v % (2 ^ 64 : Int)).toNat

def be32i (v : Int) : List Nat := be32 (u32ofInt v)

def be64i (v : Int) : List Nat := be64 (u64ofInt v)

/-! Byte-stream reading primitives, modelling reads from a bytes.Buffer.
    readU8 models bytes.Buffer.ReadByte, readU32 / readU64 model
    binary.Read of a uint32 / uint64 (which fail on a short buffer), and
    goBufRead models bytes.Buffer.Read into a zero-initialised slice of
    length n: Go returns an error only when the buffer is empty and n > 0;
    a short read silently leaves the tail of the destination zero. -/

def readU8 : List Nat → Option (Nat × List Nat)
  | [] => none
  | b :: t => some (b, t)

def readU32 : List Nat → Option (Nat × List Nat)
  | b0 :: b1 :: b2 :: b3 :: t => some (beVal [b0, b1, b2, b3], t)
  | _ => none

def readU64 : List Nat → Option (Nat × List Nat)
  | b0 :: b1 :: b2 :: b3 :: b4 :: b5 :: b6 :: b7 :: t =>
      some (beVal [b0, b1, b2, b3, b4, b5, b6, b7], t)
  | _ => none

def goBufRead (l : List Nat) (n : Nat) : Option (List Nat × List Nat) :=
  if n = 0 then some ([], l)
  else if l.isEmpty then none
  else some (l.take n ++ List.replicate (n - l.length) 0, l.drop n)

/-! The Cell data model (src/kfile/cell.go).  Field names follow the Go
    struct; Go byte fields are Nat, Go int fields are Int, Go uint64 is a
    Nat (< 2^64 for values reachable in Go). -/

def KEY_CELL : Nat := 1

def KV_CELL : Nat := 2

def INTEGER_TYPE : Nat := 1

def STRING_TYPE : Nat := 2

def BOOL_TYPE : Nat := 3

def DATE_TYPE : Nat := 4

def BYTES_TYPE : Nat := 5

def FLAG_DELETED : Nat := 1

def FLAG_OVERFLOW : Nat := 2

structure Cell where
  flags : Nat
  keySize : Int
  valueSize : Int
  keyType : Nat
  valueType : Nat
  key : List Nat
  value : List Nat
  pageId : Nat
  offset : Int
deriving DecidableEq, Repr, Inhabited

/-- NewKeyCell: key-only cell; unmentioned Go struct fields are zero valued. -/
def newKeyCell (key : List Nat) (childPageId : Nat) : Cell :=
  { flags := KEY_CELL, keySize := key.length, valueSize := 0, keyType := 0,
    valueType := 0, key := key, value := [], pageId := childPageId, offset := 0 }

/-- NewKVCell: key-value cell; unmentioned Go struct fields are zero valued. -/
def newKVCell (key : List Nat) : Cell :=
  { flags := KV_CELL, keySize := key.length, valueSize := 0, keyType := 0,
    valueType := 0, key := key, value := [], pageId := 0, offset := 0 }

/-- The value types accepted by Cell.SetValue.  Strings are modelled by
    their UTF-8 bytes, time.Time by its Unix second count. -/
inductive CellVal where
  | intV (i : Int)
  | strV (s : List Nat)
  | boolV (b : Bool)
  | dateV (unixSeconds : Int)
  | bytesV (bs : List Nat)
deriving DecidableEq, Repr

/-- Cell.SetValue: errors ("cannot set value on key-only cell") when
    flags is not KV_CELL, otherwise stores the encoded value. -/
def Cell.setValue (c : Cell) (v : CellVal) : Option Cell :=
  if c.flags ≠ KV_CELL then none
  else
    match v with
    | .intV i =>
        some { c with valueType := INTEGER_TYPE, value := be32i i, valueSize := 4 }
    | .strV s =>
        some { c with valueType := STRING_TYPE, value := s, valueSize := s.length }
    | .boolV b =>
        some { c with valueType := BOOL_TYPE, value := (if b then [1] else [0]),
                      valueSize := 1 }
    | .dateV t =>
        some { c with valueType := DATE_TYPE, value := be64i t, valueSize := 8 }
    | .bytesV bs =>
        some { c with valueType := BYTES_TYPE, value := bs, valueSize := bs.length }

/-- Cell.Size: flags + keySize + valueSize header fields (1+4+4), the key,
    and the value (KV) or the 8-byte pageId (key-only).  Note this counts
    the valueSize field for key-only cells and omits the valueType byte for
    KV cells, so it differs from the serialized length. -/
def Cell.size (c : Cell) : Int :=
  9 + c.keySize + (if c.flags = KV_CELL then c.valueSize else 8)

/-- Cell.FitsInPage. -/
def Cell.fitsInPage (c : Cell) (remainingSpace : Int) : Prop :=
  c.size ≤ remainingSpace

instance (c : Cell) (r : Int) : Decidable (c.fitsInPage r) := by
  unfold Cell.fitsInPage; infer_instance

/-- Cell.MarkDeleted: flags |= FLAG_DELETED. -/
def Cell.markDeleted (c : Cell) : Cell :=
  { c with flags := c.flags ||| FLAG_DELETED }

/-- Cell.IsDeleted. -/
def Cell.isDeleted (c : Cell) : Bool :=
  c.flags &&& FLAG_DELETED ≠ 0

/-- Cell.ToBytes: flags byte, uint32 keySize, then (KV only) uint32
    valueSize and the valueType byte, then the key bytes, then the value
    bytes (KV) or the uint64 pageId (otherwise).  The branch tests the
    whole flags byte against KV_CELL, exactly as the Go code does. -/
def Cell.toBytes (c : Cell) : List Nat :=
  [c.flags] ++ be32i c.keySize
    ++ (if c.flags = KV_CELL then be32i c.valueSize ++ [c.valueType] else [])
    ++ c.key
    ++ (if c.flags = KV_CELL then c.value else be64 c.pageId)

/-- CellFromBytes: reads the flags byte, the uint32 key size, then (when
    flags equals KV_CELL) the uint32 value size and the value type byte,
    then the key, then the value (KV) or the uint64 pageId.  Fields the Go
    code never assigns stay at their zero value. -/
def cellFromBytes (data : List Nat) : Option Cell :=
  match readU8 data with
  | none => none
  | some (flags, r1) =>
    match readU32 r1 with
    | none => none
    | some (ks, r2) =>
      if flags = KV_CELL then
        match readU32 r2 with
        | none => none
        | some (vs, r3) =>
          match readU8 r3 with
          | none => none
          | some (vt, r4) =>
            match goBufRead r4 ks with
            | none => none
            | some (key, r5) =>
              match goBufRead r5 vs with
              | none => none
              | some (value, _) =>
                some { flags := flags, keySize := ks, valueSize := vs,
                       keyType := 0, valueType := vt, key := key,
                       value := value, pageId := 0, offset := 0 }
      else
        match goBufRead r2 ks with
        | none => none
        | some (key, r3) =>
          match readU64 r3 with
          | none => none
          | some (pid, _) =>
            some { flags := flags, keySize := ks, valueSize := 0,
                   keyType := 0, valueType := 0, key := key,
                   value := [], pageId := pid, offset := 0 }

/-- Structural consistency of a Cell's bookkeeping fields with its
    contents, as established by the constructors NewKeyCell / NewKVCell and
    maintained by SetValue: the recorded sizes match the stored byte
    slices (and fit in a uint32), the never-assigned keyType and offset
    fields are zero, a KV cell has the zero pageId a KV constructor gives
    it, and a cell that is not serialized as KV carries no value fields
    and a uint64 pageId. -/
def Cell.WellFormed (c : Cell) : Prop :=
  c.keySize = c.key.length ∧ c.key.length < 2 ^ 32 ∧ c.keyType = 0 ∧ c.offset = 0 ∧
  (if c.flags = KV_CELL
   then c.valueSize = c.value.length ∧ c.value.length < 2 ^ 32 ∧ c.pageId = 0
   else c.valueSize = 0 ∧ c.valueType = 0 ∧ c.value = [] ∧ c.pageId < 2 ^ 64)

instance (c : Cell) : Decidable c.WellFormed := by
  unfold Cell.WellFormed; infer_instance

/-! The Page byte-level primitives (src/kfile/Page.go).  A page is its
    backing byte slice; offsets are Go ints.  Each operation checks bounds
    exactly as the Go accessor does and returns none for the bounds error. -/

def listWrite (d : List Nat) (start : Nat) (bs : List Nat) : List Nat :=
  d.take start ++ bs ++ d.drop (start + bs.length)

def listSlice (d : List Nat) (start n : Nat) : List Nat :=
  (d.drop start).take n

/-- Page.SetInt: bounds check offset < 0 || offset+4 > len(data), then
    write the 4-byte big-endian uint32(val). -/
def pageSetInt (d : List Nat) (off : Int) (v : Int) : Option (List Nat) :=
  if 0 ≤ off ∧ off + 4 ≤ d.length then some (listWrite d off.toNat (be32i v))
  else none

/-- Page.SetBytes: bounds check offset < 0 || offset+4+len(val) > len(data),
    then write the 4-byte big-endian length prefix followed by val. -/
def pageSetBytes (d : List Nat) (off : Int) (val : List Nat) : Option (List Nat) :=
  if 0 ≤ off ∧ off + (4 + val.length) ≤ d.length then
    some (listWrite d off.toNat (be32 val.length ++ val))
  else none

/-- Page.GetBytes: bounds check, read the 4-byte length prefix, check the
    payload range, and copy the payload out. -/
def pageGetBytes (d : List Nat) (off : Int) : Option (List Nat) :=
  if 0 ≤ off ∧ off + 4 ≤ d.length then
    let len := beVal (listSlice d off.toNat 4)
    if off + 4 + len ≤ d.length then some (listSlice d (off.toNat + 4) len)
    else none
  else none

/-- bytes.Compare: lexicographic byte-slice comparison. -/
def compareBytes : List Nat → List Nat → Ordering
  | [], [] => .eq
  | [], _ :: _ => .lt
  | _ :: _, [] => .gt
  | a :: as, b :: bs =>
      if a < b then .lt else if b < a then .gt else compareBytes as bs

/-! The SlottedPage layout (SlottedPage struct and methods; the slot
    directory and the header fields are kept both in the struct fields and
    in the page bytes, as in the Go code).  The unused maxCells field is
    omitted. -/

structure SlottedPage where
  data : List Nat
  headerSize : Int
  cellCount : Int
  freeSpace : Int
  slots : List Int
deriving DecidableEq, Repr, Inhabited

def PageHeaderSize : Int := 24

def DefaultPageSize : Nat := 8196

/-- NewSlottedPage: a zeroed page of the given size (default when 0) with
    the four header ints written.  The error results of the first three
    SetInt calls are overwritten before being tested; only a failure of the
    final SetInt(12, pageSize) makes the Go function return nil. -/
def newSlottedPage (pageSize : Nat) : Option SlottedPage :=
  let ps := if pageSize = 0 then DefaultPageSize else pageSize
  let d0 := List.replicate ps 0
  let d1 := (pageSetInt d0 0 ps).getD d0
  let d2 := (pageSetInt d1 4 PageHeaderSize).getD d1
  let d3 := (pageSetInt d2 8 0).getD d2
  match pageSetInt d3 12 ps with
  | none => none
  | some d4 =>
      some { data := d4, headerSize := PageHeaderSize, cellCount := 0,
             freeSpace := ps, slots := [] }

/-- Fixture helper: the page NewSlottedPage returns, for sizes where the
    constructor succeeds (every size of at least 16 bytes). -/
def mkPage (pageSize : Nat) : SlottedPage :=
  (newSlottedPage pageSize).getD default

/-- SlottedPage.GetCell: read the length-prefixed bytes at the offset and
    deserialize them. -/
def SlottedPage.getCell (sp : SlottedPage) (offset : Int) : Option Cell :=
  (pageGetBytes sp.data offset).bind cellFromBytes

/-- SlottedPage.GetAllSlots. -/
def SlottedPage.getAllSlots (sp : SlottedPage) : List Int :=
  sp.slots

/-- SlottedPage.GetCellBySlot: invalid when the index is at or past the
    slot count. -/
def SlottedPage.getCellBySlot (sp : SlottedPage) (slot : Nat) : Option Cell :=
  if sp.slots.length ≤ slot then none
  else sp.getCell (sp.slots.getD slot 0)

/-- findSlotPosition's loop.  The Go loop terminates because high - low
    strictly decreases; it therefore runs at most slots.length + 1 times,
    which the fuel argument accounts for (the fuel-exhausted branch is
    unreachable from findSlotPosition).  Inside the loop mid lies between
    low and high, so the Go slot access sp.slots[mid] is in range; getD
    models that in-range access. -/
def findSlotLoop (sp : SlottedPage) (key : List Nat) :
    Nat → Int → Int → Int
  | 0, low, _ => low
  | fuel + 1, low, high =>
    if low ≤ high then
      let mid : Int := (low + high) / 2
      match sp.getCell (sp.slots.getD mid.toNat 0) with
      | none => low
      | some cell =>
        match compareBytes key cell.key with
        | .eq => mid
        | .lt => findSlotLoop sp key fuel low (mid - 1)
        | .gt => findSlotLoop sp key fuel (mid + 1) high
    else low

/-- SlottedPage.findSlotPosition: binary search of the insertion index by
    key; on a cell-read error the Go code returns low. -/
def SlottedPage.findSlotPosition (sp : SlottedPage) (key : List Nat) : Int :=
  findSlotLoop sp key (sp.slots.length + 1) 0 ((sp.slots.length : Int) - 1)

/-- Go slice insertion: append a zero entry, shift the tail up by one with
    copy, then assign index pos. -/
def insertAt (l : List Int) (pos : Nat) (x : Int) : List Int :=
  l.take pos ++ x :: l.drop pos

inductive InsertErr where
  | pageFull
  | setBytesOutOfBounds
  | setIntOutOfBounds
deriving DecidableEq, Repr

/-- SlottedPage.InsertCell.  The page-full test is FitsInPage, which only
    compares Cell.Size against the free-space pointer.  On an error from
    SetBytes the page is unchanged; after SetBytes the slot array and the
    header fields are updated before the final SetInt error is tested, so
    that error path returns with the page already modified.  The error of
    SetInt(8, cellCount) is overwritten by the result of
    SetInt(12, freeSpace) and never tested. -/
def SlottedPage.insertCell (sp : SlottedPage) (cell : Cell) :
    SlottedPage × Option InsertErr :=
  let cellBytes := cell.toBytes
  let cellSize : Int := cellBytes.length
  if ¬ cell.fitsInPage sp.freeSpace then (sp, some .pageFull)
  else
    let newOffset := sp.freeSpace - cellSize - 4
    match pageSetBytes sp.data newOffset cellBytes with
    | none => (sp, some .setBytesOutOfBounds)
    | some d1 =>
      let insertPos := sp.findSlotPosition cell.key
      let slots1 := insertAt sp.slots insertPos.toNat newOffset
      let cellCount1 := sp.cellCount + 1
      let d2 := (pageSetInt d1 8 cellCount1).getD d1
      match pageSetInt d2 12 newOffset with
      | none =>
          ({ sp with data := d2, slots := slots1, cellCount := cellCount1,
                     freeSpace := newOffset }, some .setIntOutOfBounds)
      | some d3 =>
          ({ sp with data := d3, slots := slots1, cellCount := cellCount1,
                     freeSpace := newOffset }, none)

/-- Specification-side predicate (not a source translation): some slot of
    the page holds a cell whose key equals k. -/
def SlottedPage.hasKey (sp : SlottedPage) (k : List Nat) : Bool :=
  sp.slots.any fun off =>
    match sp.getCell off with
    | some c => decide (c.key = k)
    | none => false

/-! The block identifier (src/kfile/file.go). -/

structure BlockId where
  filename : String
  blknum : Int
deriving DecidableEq, Repr, Inhabited

/-! The lock table (src/concurrency/lockTable.go).  The Go map
    BlockId -> int is modelled as an association list with at most one
    entry per block; getLockVal returns 0 for an absent key, exactly like
    the Go accessor.  sLock / xLock are modelled by their no-wait outcome:
    when the Go wait-loop guard is true on entry the caller blocks (and
    eventually times out) and the table is unchanged; otherwise the lock is
    granted immediately. -/

abbrev LockMap : Type := List (BlockId × Int)

def mapLookup (m : LockMap) (blk : BlockId) : Option Int :=
  match m with
  | [] => none
  | (b, v) :: t => if b = blk then some v else mapLookup t blk

def mapSet (m : LockMap) (blk : BlockId) (v : Int) : LockMap :=
  match m with
  | [] => [(blk, v)]
  | (b, w) :: t => if b = blk then (blk, v) :: t else (b, w) :: mapSet t blk v

/-- Go delete(map, key): the key is removed entirely. -/
def mapErase (m : LockMap) (blk : BlockId) : LockMap :=
  match m with
  | [] => []
  | (b, w) :: t => if b = blk then mapErase t blk else (b, w) :: mapErase t blk

/-- LockTable.getLockVal: the stored value, or 0 when the block is absent. -/
def getLockVal (m : LockMap) (blk : BlockId) : Int :=
  (mapLookup m blk).getD 0

/-- LockTable.hasXLock: the value is negative. -/
def hasXLock (m : LockMap) (blk : BlockId) : Bool :=
  getLockVal m blk < 0

/-- LockTable.hasOtherLocks: the value is neither 0 nor 1 (a single shared
    holder is allowed through, as the upgrade slot). -/
def hasOtherLocks (m : LockMap) (blk : BlockId) : Bool :=
  getLockVal m blk ≠ 0 ∧ getLockVal m blk ≠ 1

inductive LockAttempt where
  | acquired (m : LockMap)
  | blocked
deriving DecidableEq

/-- LockTable.sLock without the waiting: blocked when hasXLock holds on
    entry, otherwise the entry becomes getLockVal + 1. -/
def sLockTry (m : LockMap) (blk : BlockId) : LockAttempt :=
  if hasXLock m blk then .blocked
  else .acquired (mapSet m blk (getLockVal m blk + 1))

/-- LockTable.xLock without the waiting: blocked when hasOtherLocks holds
    on entry, otherwise the entry becomes -1. -/
def xLockTry (m : LockMap) (blk : BlockId) : LockAttempt :=
  if hasOtherLocks m blk then .blocked
  else .acquired (mapSet m blk (-1))

inductive UnlockOutcome where
  | notLockedError
  | decremented
  | removedBroadcast
deriving DecidableEq, Repr

/-- LockTable.unlock: error when the value is 0 (block not locked, table
    unchanged); decrement when the value exceeds 1; otherwise remove the
    entry and broadcast to the condition variable's waiters. -/
def unlockStep (m : LockMap) (blk : BlockId) : LockMap × UnlockOutcome :=
  let v := getLockVal m blk
  if v = 0 then (m, .notLockedError)
  else if v > 1 then (mapSet m blk (v - 1), .decremented)
  else (mapErase m blk, .removedBroadcast)

/-! Disk-affecting events, used to observe the order of operations. -/

inductive Ev where
  | write (blk : BlockId) (content : List Nat)
  | appendRec (lsn : Int)
  | allocateBuf (blk : BlockId)
  | forceCall (lsn : Int)
deriving DecidableEq, Repr

/-! The Buffer (src/buffer/buffer.go).  Field names follow the Go struct;
    fm is the ambient disk, modelled through the emitted write events. -/

structure GoBuffer where
  contents : SlottedPage
  blk : Option BlockId
  pins : Int
  txnum : Int
  lsn : Int
  dirty : Bool
deriving DecidableEq, Repr

/-- Buffer.Flush: writes the page to its block only when txnum > 0 and a
    block is assigned, then resets txnum to -1.  The Dirty flag is not
    cleared by the Go code. -/
def GoBuffer.flush (b : GoBuffer) : GoBuffer × List Ev :=
  match b.blk with
  | some blk =>
      if 0 < b.txnum then ({ b with txnum := -1 }, [.write blk b.contents.data])
      else (b, [])
  | none => (b, [])

/-- Buffer.FlushLSN: flush when lsn >= b.lsn, otherwise do nothing.  The
    Go method returns nil (success) on both paths when no write error
    occurs. -/
def GoBuffer.flushLSN (b : GoBuffer) (lsn : Int) : GoBuffer × List Ev :=
  if b.lsn ≤ lsn then b.flush else (b, [])

/-- Buffer.MarkModified: the LSN is only recorded when positive. -/
def GoBuffer.markModified (b : GoBuffer) (txnum lsn : Int) : GoBuffer :=
  { b with txnum := txnum, lsn := if 0 < lsn then lsn else b.lsn, dirty := true }

/-- Buffer.LogFlush: binds the buffer to the block and writes
    unconditionally (no txnum or dirty gating). -/
def GoBuffer.logFlush (b : GoBuffer) (blk : BlockId) : GoBuffer × List Ev :=
  ({ b with blk := some blk }, [.write blk b.contents.data])

/-- BufferMgr.Unpin as it affects the buffer: Buffer.UnPin decrements a
    positive pin count and errors otherwise (only the state effect is
    modelled here). -/
def bmUnpin (b : GoBuffer) : GoBuffer :=
  if 0 < b.pins then { b with pins := b.pins - 1 } else b

/-! Go error values (for the errors.Is test in LogMgr.Append).  A
    fmt.Errorf call without %w allocates a fresh error value that wraps
    nothing, and a package-level errors.New sentinel is a distinct value;
    errors.Is on such values is plain identity.  In particular the error
    kfile.SlottedPage.InsertCell returns (fmt.Errorf("cell too large
    full")) is never the value of the log package's ErrCellTooLarge
    sentinel, even though the two messages coincide. -/

inductive GoErrVal where
  | fmtError (msg : String)
  | sentinel (pkg : String) (msg : String)
deriving DecidableEq, Repr

def logErrCellTooLarge : GoErrVal := .sentinel "log" "cell too large full"

def insertErrValue : InsertErr → GoErrVal
  | .pageFull => .fmtError "cell too large full"
  | .setBytesOutOfBounds => .fmtError "offset out of bounds: setting bytes"
  | .setIntOutOfBounds => .fmtError "offset out of bounds: setting int"

/-- errors.Is when neither value has an Unwrap chain: value identity. -/
def goErrorsIs (e target : GoErrVal) : Bool :=
  e = target

/-! The Log Manager (src/log/logmgr.go), at the state level: the pinned
    log buffer, the current block, the LSN counters, and the log file's
    length in blocks (what FileMgr.LengthLocked returns). -/

structure LogMgr where
  logBuffer : GoBuffer
  logFile : String
  currentBlock : BlockId
  latestLSN : Int
  latestSavedLSN : Int
  diskBlocks : Nat
deriving DecidableEq, Repr

/-- LogMgr.Flush: LogFlush the buffer to the current block (always
    writes), unpin it, and advance latestSavedLSN to latestLSN. -/
def lmFlush (lm : LogMgr) : LogMgr × List Ev :=
  let (b1, ev) := lm.logBuffer.logFlush lm.currentBlock
  let b2 := bmUnpin b1
  ({ lm with logBuffer := b2,
             diskBlocks := max lm.diskBlocks (lm.currentBlock.blknum.toNat + 1),
             latestSavedLSN := lm.latestLSN }, ev)

/-- LogMgr.GenerateKey: the ASCII bytes of "log_" followed by the 8-byte
    big-endian uint64(latestLSN + 1). -/
def logKeyBytes (lsn : Int) : List Nat :=
  [108, 111, 103, 95] ++ be64 (u64ofInt lsn)

def lmGenerateKey (lm : LogMgr) : List Nat :=
  logKeyBytes (lm.latestLSN + 1)

inductive AppendErr where
  | emptyRecord
  | insertFailed (e : InsertErr)
  | insertAfterNewBlock (e : InsertErr)
deriving DecidableEq, Repr

instance {ε α : Type} [DecidableEq ε] [DecidableEq α] :
    DecidableEq (Except ε α) := fun x y =>
  match x, y with
  | .ok a, .ok b => decidable_of_iff (a = b) (by simp)
  | .error a, .error b => decidable_of_iff (a = b) (by simp)
  | .ok _, .error _ => isFalse (by simp)
  | .error _, .ok _ => isFalse (by simp)

/-- The tail of LogMgr.Append after a successful insert: store the page
    back (SetContents), increment latestLSN, mark the log buffer modified
    with (txn = -1, lsn = latestLSN), return (latestLSN, key). -/
def lmAppendFinish (lm : LogMgr) (sp : SlottedPage) (cellKey : List Nat)
    (ev : List Ev) : LogMgr × List Ev × Except AppendErr (Int × List Nat) :=
  let lsn := lm.latestLSN + 1
  let b := ({ lm.logBuffer with contents := sp }).markModified (-1) lsn
  ({ lm with logBuffer := b, latestLSN := lsn }, ev ++ [.appendRec lsn], .ok (lsn, cellKey))

/-- LogMgr.Append.  On an insert failure the code tests
    errors.Is(err, ErrCellTooLarge); when the test succeeds it flushes the
    current block, computes the next block number from the file length
    (appendNewBlock), asks the policy for a buffer on that block (which
    does not rebind lm.logBuffer), and retries the insert on the log
    buffer's page; when the test fails the append returns the wrapped
    insert error.  SetValue on the freshly built KV cell always succeeds. -/
def lmAppend (lm : LogMgr) (logrec : List Nat) :
    LogMgr × List Ev × Except AppendErr (Int × List Nat) :=
  if logrec = [] then (lm, [], .error .emptyRecord)
  else
    let cellKey := lmGenerateKey lm
    let cell := ((newKVCell cellKey).setValue (.bytesV logrec)).getD (newKVCell cellKey)
    let (sp1, res) := lm.logBuffer.contents.insertCell cell
    match res with
    | none => lmAppendFinish lm sp1 cellKey []
    | some e =>
      if goErrorsIs (insertErrValue e) logErrCellTooLarge then
        let (lm1, ev1) := lmFlush { lm with logBuffer := { lm.logBuffer with contents := sp1 } }
        let newBlk : BlockId := ⟨lm1.logFile, (lm1.diskBlocks : Int)⟩
        let lm2 := { lm1 with currentBlock := newBlk }
        let ev2 := [Ev.allocateBuf newBlk]
        let (sp2, res2) := lm2.logBuffer.contents.insertCell cell
        match res2 with
        | some e2 =>
            ({ lm2 with logBuffer := { lm2.logBuffer with contents := sp2 } },
             ev1 ++ ev2, .error (.insertAfterNewBlock e2))
        | none => lmAppendFinish lm2 sp2 cellKey (ev1 ++ ev2)
      else
        ({ lm with logBuffer := { lm.logBuffer with contents := sp1 } },
         [], .error (.insertFailed e))

def logBlk0 : BlockId := ⟨"log.db", 0⟩

/-- Fixture: the LogMgr state NewLogMgr leaves for an empty log file with
    block size 60.  appendNewBlock computed block 0 without extending the
    file, the block was pinned, the fresh slotted page was installed via
    SetContents, and the initial Buffer.Flush call was a no-op because the
    fresh buffer's txnum is -1. -/
def lmInit : LogMgr :=
  { logBuffer := { contents := mkPage 60, blk := some logBlk0, pins := 1,
                   txnum := -1, lsn := -1, dirty := false },
    logFile := "log.db", currentBlock := logBlk0, latestLSN := 0,
    latestSavedLSN := 0, diskBlocks := 0 }

def rec1 : List Nat := List.replicate 20 1

def rec2 : List Nat := List.replicate 20 2

/-! The Recovery Manager's commit (src/recovery/recoveryMgr.go) over a
    state made of the buffer pool's frames and the log manager. -/

structure RecoveryState where
  pool : List GoBuffer
  lm : LogMgr
deriving DecidableEq, Repr

/-- Policy FlushAll(txnum): flush every frame whose modifying transaction
    id equals txnum (flush errors are discarded by the Go code). -/
def flushAllPolicy : List GoBuffer → Int → List GoBuffer × List Ev
  | [], _ => ([], [])
  | b :: rest, txnum =>
    let p1 := if b.txnum = txnum then b.flush else (b, [])
    let p2 := flushAllPolicy rest txnum
    (p1.1 :: p2.1, p1.2 ++ p2.2)

/-- log_record op codes (CHECKPOINT = iota, START, COMMIT, ROLLBACK). -/
def COMMIT_OP : Nat := 2

/-- CommitRecord.ToBytes: int32 op code, int64 txnum, both big-endian. -/
def commitRecordBytes (txnum : Int) : List Nat :=
  be32 COMMIT_OP ++ be64 (u64ofInt txnum)

/-- CommitRecordWriteToLog: append the serialized commit record; on an
    append error the helper returns -1 for the LSN. -/
def commitRecordWriteToLog (lm : LogMgr) (txnum : Int) : LogMgr × List Ev × Int :=
  let (lm1, ev, r) := lmAppend lm (commitRecordBytes txnum)
  match r with
  | .ok (lsn, _) => (lm1, ev, lsn)
  | .error _ => (lm1, ev, -1)

/-- RecoveryMgr.Commit: flush all buffers of this transaction through the
    pool's policy, write the COMMIT record, then force the log by calling
    FlushLSN on the log buffer with the record's LSN. -/
def recoveryCommit (s : RecoveryState) (txNum : Int) : RecoveryState × List Ev :=
  let p1 := flushAllPolicy s.pool txNum
  let p2 := commitRecordWriteToLog s.lm txNum
  let lsn := p2.2.2
  let p3 := p2.1.logBuffer.flushLSN lsn
  ({ pool := p1.1, lm := { p2.1 with logBuffer := p3.1 } },
   p1.2 ++ p2.2.1 ++ (Ev.forceCall lsn :: p3.2))

/-! The Clock (second chance) replacement policy (Clock struct,
    AllocateBufferForBlock, evictLocked).  Go buffers are heap objects
    shared between the frame array and the block map; the model gives each
    buffer an index (its id) into a store list, with frames and the buffer
    pool holding ids.  Page contents and the disk image are not observed by
    the claim and are reduced to the dirty flag. -/

structure ClockBuf where
  blk : Option BlockId
  pins : Int
  txnum : Int
  dirty : Bool
  referenced : Bool
deriving DecidableEq, Repr

structure ClockState where
  capacity : Nat
  store : List ClockBuf
  frames : List (Option Nat)
  clockHand : Nat
  bufferPool : List (BlockId × Nat)
deriving DecidableEq, Repr

def freshClockBuf : ClockBuf :=
  { blk := none, pins := 0, txnum := -1, dirty := false, referenced := false }

def storeGet (s : ClockState) (bid : Nat) : ClockBuf :=
  s.store.getD bid freshClockBuf

def storeSet (s : ClockState) (bid : Nat) (b : ClockBuf) : ClockState :=
  { s with store := s.store.set bid b }

def poolLookup (s : ClockState) (blk : BlockId) : Option Nat :=
  (s.bufferPool.find? fun e => decide (e.1 = blk)).map (·.2)

def poolErase : List (BlockId × Nat) → BlockId → List (BlockId × Nat)
  | [], _ => []
  | (b, v) :: t, blk =>
      if b = blk then poolErase t blk else (b, v) :: poolErase t blk

/-- NewBuffer(fm): a fresh unpinned buffer bound to no block, appended to
    the store; its id is returned. -/
def newBufferAlloc (s : ClockState) : ClockState × Nat :=
  ({ s with store := s.store ++ [freshClockBuf] }, s.store.length)

/-- The range loop over c.frames looking for the first nil frame. -/
def firstEmptyIdx : List (Option Nat) → Option Nat
  | [] => none
  | none :: _ => some 0
  | some _ :: t => (firstEmptyIdx t).map (· + 1)

def errNoUnpinnedBuffers : GoErrVal :=
  .sentinel "buffer" "no unpinned buffers available for eviction"

/-- One pass of evictLocked's inner loop.  Each iteration examines the
    frame under the clock hand, advances the hand, and breaks when the
    hand has come back to startingHand; the loop therefore runs at most
    capacity times, which the fuel argument accounts for (the
    fuel-exhausted branch is only reachable with capacity 0, where the Go
    code would index an empty array). -/
def innerScan (firstPass : Bool) (startingHand : Nat) :
    Nat → ClockState → ClockState × Option Nat
  | 0, s => (s, none)
  | fuel + 1, s =>
    let frameOpt := s.frames.getD s.clockHand none
    let s1 := { s with clockHand := (s.clockHand + 1) % s.capacity }
    match frameOpt with
    | none =>
        if s1.clockHand = startingHand then (s1, none)
        else innerScan firstPass startingHand fuel s1
    | some bid =>
        let b := storeGet s1 bid
        if 0 < b.pins then
          if s1.clockHand = startingHand then (s1, none)
          else innerScan firstPass startingHand fuel s1
        else if firstPass && b.referenced then
          let s2 := storeSet s1 bid { b with referenced := false }
          if s2.clockHand = startingHand then (s2, none)
          else innerScan firstPass startingHand fuel s2
        else
          let s2 :=
            match b.blk with
            | some blk => { s1 with bufferPool := poolErase s1.bufferPool blk }
            | none => s1
          (s2, some bid)

/-- Clock.evictLocked: a first pass that skips pinned frames and clears
    reference bits, a second pass that takes the first unpinned frame, and
    the typed ErrNoUnpinnedBuffers after both passes fail. -/
def evictLocked (s : ClockState) : ClockState × Except GoErrVal Nat :=
  let startingHand := s.clockHand
  match innerScan true startingHand s.capacity s with
  | (s1, some bid) => (s1, .ok bid)
  | (s1, none) =>
    match innerScan false startingHand s1.capacity s1 with
    | (s2, some bid) => (s2, .ok bid)
    | (s2, none) => (s2, .error errNoUnpinnedBuffers)

/-- Buffer.assignToBlock as the Clock path uses it: flush the previous
    contents when dirty (no-op for a clean buffer), bind the block, read
    it (an EOF on a not-yet-existing block is tolerated by the caller and
    leaves the zeroed page), and reset the pin count. -/
def clockAssignToBlock (s : ClockState) (bid : Nat) (blk : BlockId) : ClockState :=
  let b := storeGet s bid
  let b1 := if b.dirty ∧ b.blk.isSome then { b with dirty := false, txnum := -1 } else b
  storeSet s bid { b1 with blk := some blk, pins := 0 }

/-- The tail of AllocateBufferForBlock once a buffer has been chosen:
    assign the block, set the reference bit, pin, record the binding in
    the pool map. -/
def clockFinishAlloc (s : ClockState) (bid : Nat) (blk : BlockId) :
    ClockState × Except GoErrVal Nat :=
  let s1 := clockAssignToBlock s bid blk
  let b := storeGet s1 bid
  let s2 := storeSet s1 bid { b with referenced := true, pins := b.pins + 1 }
  ({ s2 with bufferPool := s2.bufferPool ++ [(blk, bid)] }, .ok bid)

/-- Clock.AllocateBufferForBlock.  On a pool hit the buffer is referenced
    and pinned.  On a miss the local variable buff is initialised with
    NewBuffer(c.fm); the loop over frames replaces it with another fresh
    buffer stored into the first empty frame; then the code evicts only if
    buff == nil, which never holds, so with no empty frame the initial
    fresh buffer (outside the frame array) is used. -/
def clockAllocate (s : ClockState) (blk : BlockId) : ClockState × Except GoErrVal Nat :=
  match poolLookup s blk with
  | some bid =>
      let b := storeGet s bid
      (storeSet s bid { b with referenced := true, pins := b.pins + 1 }, .ok bid)
  | none =>
    let t1 := newBufferAlloc s
    let scanRes : ClockState × Option Nat :=
      match firstEmptyIdx t1.1.frames with
      | some i =>
          let t2 := newBufferAlloc t1.1
          ({ t2.1 with frames := t2.1.frames.set i (some t2.2) }, some t2.2)
      | none => (t1.1, some t1.2)
    let afterEvict : ClockState × Except GoErrVal Nat :=
      match scanRes.2 with
      | none => evictLocked scanRes.1
      | some bid => (scanRes.1, .ok bid)
    match afterEvict.2 with
    | .error e => (afterEvict.1, .error e)
    | .ok bid => clockFinishAlloc afterEvict.1 bid blk

def blkA : BlockId := ⟨"f.db", 0⟩

def blkB : BlockId := ⟨"f.db", 1⟩

def blkC : BlockId := ⟨"f.db", 2⟩

/-- Fixture: a capacity-2 Clock whose two frames hold unpinned,
    unreferenced, clean buffers - both immediate second-chance victims. -/
def clockFix : ClockState :=
  { capacity := 2,
    store := [{ blk := some blkA, pins := 0, txnum := -1, dirty := false,
                referenced := false },
              { blk := some blkB, pins := 0, txnum := -1, dirty := false,
                referenced := false }],
    frames := [some 0, some 1],
    clockHand := 0,
    bufferPool := [(blkA, 0), (blkB, 1)] }

/-! The transaction-id assignment (src/transaction/transactionMgr.go).
    The counter nextTxNum is a field of the TransactionMgr being
    constructed - not process-wide state - and txtnum (the id handed to
    the RecoveryMgr) is never assigned. -/

structure TxMgr where
  nextTxNum : Int
  txtnum : Int
deriving DecidableEq, Repr

/-- TransactionMgr.nextTxNumber: atomic.AddInt64(&t.nextTxNum, 1) returns
    the incremented value. -/
def txNextTxNumber (t : TxMgr) : Int × TxMgr :=
  (t.nextTxNum + 1, { t with nextTxNum := t.nextTxNum + 1 })

/-- NewTransaction: the struct literal zero-initialises both integer
    fields; tx.nextTxNum = tx.nextTxNumber() stores the incremented value
    back; tx.txtnum stays 0 and is what NewRecoveryMgr receives. -/
def newTransaction : TxMgr :=
  let t0 : TxMgr := { nextTxNum := 0, txtnum := 0 }
  let p := txNextTxNumber t0
  { p.2 with nextTxNum := p.1 }

def c4good : Cell :=
  ((newKVCell [107]).setValue (.bytesV [1])).getD (newKVCell [107])

def c4bad : Cell := c4good.markDeleted

def c5cell : Cell :=
  ((newKVCell [1, 2, 3, 4]).setValue (.bytesV [9, 9, 9, 9])).getD (newKVCell [])

def c7a : Cell :=
  ((newKVCell [107]).setValue (.bytesV [1])).getD (newKVCell [107])

def c7b : Cell :=
  ((newKVCell [107]).setValue (.bytesV [2])).getD (newKVCell [107])

def sp7 : SlottedPage := ((mkPage 64).insertCell c7a).1

def blkW : BlockId := ⟨"w.db", 0⟩

/-! Theorems: supporting lemmas first, then the claims. -/

theorem beVal_be32 (n : Nat) : beVal (be32 n) = n % 2 ^ 32 := by
  simp only [be32, beVal, List.foldl]
  omega

theorem beVal_be64 (n : Nat) : beVal (be64 n) = n % 2 ^ 64 := by
  simp only [be64, beVal, List.foldl]
  omega

theorem readU32_append (n : Nat) (l : List Nat) :
    readU32 (be32 n ++ l) = some (n % 2 ^ 32, l) := by
  have h := beVal_be32 n
  simp only [be32] at h
  simp only [be32, List.cons_append, List.nil_append, readU32]
  rw [h]

theorem readU64_append (n : Nat) (l : List Nat) :
    readU64 (be64 n ++ l) = some (n % 2 ^ 64, l) := by
  have h := beVal_be64 n
  simp only [be64] at h
  simp only [be64, List.cons_append, List.nil_append, readU64]
  rw [h]

theorem goBufRead_append (k l : List Nat) :
    goBufRead (k ++ l) k.length = some (k, l) := by
  cases k with
  | nil => simp [goBufRead]
  | cons a t =>
    simp only [goBufRead, List.length_cons, List.cons_append]
    rw [if_neg (by omega), if_neg (by simp [List.isEmpty])]
    have h1 : (a :: (t ++ l)).take (t.length + 1) = a :: t := by
      simp
    have h2 : (a :: (t ++ l)).drop (t.length + 1) = l := by
      simp
    have h3 : t.length + 1 - ((t ++ l).length + 1) = 0 := by
      simp only [List.length_append]
      omega
    rw [h1, h2]
    simp only [List.length_cons] at h3 ⊢
    rw [h3]
    simp

theorem u32ofInt_natCast (n : Nat) : u32ofInt n = n % 2 ^ 32 := by
  unfold u32ofInt; omega

theorem length_listWrite (d : List Nat) (start : Nat) (bs : List Nat)
    (h : start + bs.length ≤ d.length) :
    (listWrite d start bs).length = d.length := by
  simp only [listWrite, List.length_append, List.length_take, List.length_drop]
  omega

theorem length_insertAt (l : List Int) (pos : Nat) (x : Int) :
    (insertAt l pos x).length = l.length + 1 := by
  simp only [insertAt, List.length_append, List.length_take, List.length_cons,
    List.length_drop]
  omega

theorem length_pageSetInt (d d' : List Nat) (off v : Int)
    (h : pageSetInt d off v = some d') : d'.length = d.length := by
  unfold pageSetInt at h
  by_cases hb : 0 ≤ off ∧ off + 4 ≤ d.length
  · rw [if_pos hb] at h
    cases h
    apply length_listWrite
    simp only [be32i, be32, List.length_cons, List.length_nil]
    omega
  · rw [if_neg hb] at h
    cases h

theorem length_pageSetBytes (d d' : List Nat) (off : Int) (val : List Nat)
    (h : pageSetBytes d off val = some d') : d'.length = d.length := by
  unfold pageSetBytes at h
  by_cases hb : 0 ≤ off ∧ off + (4 + val.length) ≤ d.length
  · rw [if_pos hb] at h
    cases h
    apply length_listWrite
    simp only [be32, List.length_append, List.length_cons, List.length_nil]
    omega
  · rw [if_neg hb] at h
    cases h

theorem getLockVal_mapSet (m : LockMap) (blk : BlockId) (v : Int) :
    getLockVal (mapSet m blk v) blk = v := by
  induction m with
  | nil => simp [mapSet, getLockVal, mapLookup]
  | cons e t ih =>
    obtain ⟨b, w⟩ := e
    by_cases hb : b = blk
    · simp [mapSet, hb, getLockVal, mapLookup]
    · simp only [mapSet, if_neg hb]
      simp only [getLockVal, mapLookup, if_neg hb] at ih ⊢
      exact ih

theorem mapLookup_mapErase (m : LockMap) (blk : BlockId) :
    mapLookup (mapErase m blk) blk = none := by
  induction m with
  | nil => simp [mapErase, mapLookup]
  | cons e t ih =>
    obtain ⟨b, w⟩ := e
    by_cases hb : b = blk
    · simp only [mapErase, if_pos hb]
      exact ih
    · simp only [mapErase, if_neg hb, mapLookup, if_neg hb]
      exact ih

/-! Supporting lemmas about the commit path. -/

theorem goErrorsIs_insertErr (e : InsertErr) :
    goErrorsIs (insertErrValue e) logErrCellTooLarge = false := by
  cases e <;> decide

theorem flush_events (b : GoBuffer) :
    ∀ e ∈ b.flush.2, 0 < b.txnum ∧
      ∃ blk, b.blk = some blk ∧ e = Ev.write blk b.contents.data := by
  unfold GoBuffer.flush
  split
  · next blk heq =>
      split
      · next hpos =>
          intro e he
          simp only [List.mem_singleton] at he
          exact ⟨hpos, blk, heq, he⟩
      · next hpos =>
          intro e he
          simp at he
  · next heq =>
      intro e he
      simp at he

theorem flushAllPolicy_writes (pool : List GoBuffer) (t : Int) :
    ∀ e ∈ (flushAllPolicy pool t).2, ∃ b ∈ pool, b.txnum = t ∧ 0 < t ∧
      ∃ blk, b.blk = some blk ∧ e = Ev.write blk b.contents.data := by
  induction pool with
  | nil => simp [flushAllPolicy]
  | cons b rest ih =>
    intro e he
    simp only [flushAllPolicy, List.mem_append] at he
    rcases he with he | he
    · by_cases hb : b.txnum = t
      · rw [if_pos hb] at he
        obtain ⟨hpos, blk, hblk, hev⟩ := flush_events b e he
        exact ⟨b, List.mem_cons_self b rest, hb, hb ▸ hpos, blk, hblk, hev⟩
      · rw [if_neg hb] at he
        simp at he
    · obtain ⟨b', hb', h1, h2, blk, h3, h4⟩ := ih e he
      exact ⟨b', List.mem_cons_of_mem b hb', h1, h2, blk, h3, h4⟩

theorem lmAppend_events (lm : LogMgr) (r : List Nat) :
    (lmAppend lm r).2.1 = [] ∨
      (lmAppend lm r).2.1 = [Ev.appendRec (lm.latestLSN + 1)] := by
  unfold lmAppend
  by_cases hr : r = []
  · rw [if_pos hr]
    left; rfl
  · rw [if_neg hr]
    rcases hins : (lm.logBuffer.contents.insertCell
        (((newKVCell (lmGenerateKey lm)).setValue (.bytesV r)).getD
          (newKVCell (lmGenerateKey lm)))) with ⟨sp1, res⟩
    simp only [hins]
    cases res with
    | none =>
      right
      dsimp only
      simp [lmAppendFinish]
    | some e =>
      dsimp only
      rw [goErrorsIs_insertErr e]
      left
      rfl

/-! The claims. -/

/-- C1: RecoveryMgr.Commit first flushes the buffers last modified by this
    transaction's id (every disk write in the first trace segment is the
    write of a pool buffer whose modifying transaction is txNum), then
    appends the Commit record (the middle segment contains no disk write),
    and only then calls FlushLSN to force the log up to the record's LSN
    (the forceCall event and whatever it writes come last). -/
theorem C1_commit_order (s : RecoveryState) (txNum : Int) :
    ∃ evFlush evAppend evForce lsn,
      (recoveryCommit s txNum).2 = evFlush ++ evAppend ++ (Ev.forceCall lsn :: evForce) ∧
      evFlush = (flushAllPolicy s.pool txNum).2 ∧
      (∀ e ∈ evFlush, ∃ b ∈ s.pool, b.txnum = txNum ∧ 0 < txNum ∧
        ∃ blk, b.blk = some blk ∧ e = Ev.write blk b.contents.data) ∧
      (∀ e ∈ evAppend, ∀ blk c, e ≠ Ev.write blk c) := by
  refine ⟨(flushAllPolicy s.pool txNum).2,
    (commitRecordWriteToLog s.lm txNum).2.1,
    ((commitRecordWriteToLog s.lm txNum).1.logBuffer.flushLSN
      (commitRecordWriteToLog s.lm txNum).2.2).2,
    (commitRecordWriteToLog s.lm txNum).2.2, rfl, rfl, flushAllPolicy_writes s.pool txNum, ?_⟩
  intro e he blk c
  have h : (commitRecordWriteToLog s.lm txNum).2.1 = (lmAppend s.lm (commitRecordBytes txNum)).2.1 := by
    unfold commitRecordWriteToLog
    rcases lmAppend s.lm (commitRecordBytes txNum) with ⟨lm1, ev, r⟩
    cases r <;> rfl
  rw [h] at he
  rcases lmAppend_events s.lm (commitRecordBytes txNum) with hev | hev
  · rw [hev] at he
    simp at he
  · rw [hev] at he
    simp only [List.mem_singleton] at he
    rw [he]
    intro hcontra
    cases hcontra

/-- C2: the claim that a successful flush_lsn(L) makes every record with
    LSN at most L durable fails on the code.  After one append to a fresh
    log manager the log buffer carries (txnum = -1, lsn = 1) and the
    record exists only in memory (latestSavedLSN is 0 and the only event
    so far is the in-memory append); FlushLSN(1) takes the lsn >= b.lsn
    branch, but Buffer.Flush writes only when txnum > 0, so the call
    returns success leaving the buffer unchanged and writing nothing. -/
theorem C2_flushLSN_writes_nothing :
    (lmAppend lmInit rec1).2.2 = .ok (1, logKeyBytes 1) ∧
    (lmAppend lmInit rec1).2.1 = [Ev.appendRec 1] ∧
    (lmAppend lmInit rec1).1.latestSavedLSN = 0 ∧
    (lmAppend lmInit rec1).1.logBuffer.txnum = -1 ∧
    (lmAppend lmInit rec1).1.logBuffer.lsn = 1 ∧
    (lmAppend lmInit rec1).1.logBuffer.flushLSN 1 =
      ((lmAppend lmInit rec1).1.logBuffer, []) := by decide

/-- C3: the block-boundary crossing in LogMgr.Append is unreachable, so
    the iterator can never see records spanning blocks.  With block size
    60, the first 20-byte record is appended (LSN 1); the second no longer
    fits, InsertCell returns its fmt.Errorf page-full value, the
    errors.Is(err, ErrCellTooLarge) comparison against the log package's
    distinct sentinel fails, and Append returns an error without flushing,
    without starting a new block and without appending the record. -/
theorem C3_append_boundary_fails :
    (lmAppend lmInit rec1).2.2 = .ok (1, logKeyBytes 1) ∧
    (lmAppend (lmAppend lmInit rec1).1 rec2).2.2 =
      .error (.insertFailed .pageFull) ∧
    (lmAppend (lmAppend lmInit rec1).1 rec2).2.1 = [] ∧
    (lmAppend (lmAppend lmInit rec1).1 rec2).1.currentBlock = logBlk0 ∧
    (lmAppend (lmAppend lmInit rec1).1 rec2).1.latestLSN = 1 := by decide

/-- C4 counterexample: a KV cell carrying a value with the deleted flag
    set (flags = KV_CELL ||| FLAG_DELETED = 3) is serialized by the
    key-only branch, so deserializing its serialization loses the value:
    CellFromBytes(ToBytes(c)) is not c. -/
theorem C4_roundtrip_cex : cellFromBytes c4bad.toBytes ≠ some c4bad := by decide

/-- C4 (amended): deserialization inverts serialization for every
    structurally consistent cell whose flags byte selects the branch
    matching its contents - in particular every constructor-built key-only
    cell (deleted or not) and every KV cell without the deleted flag.  A
    KV cell with the deleted flag set is excluded: its flags byte is 3, it
    serializes as key-only, and its value is lost. -/
theorem C4_cell_roundtrip (c : Cell) (h : c.WellFormed) :
    cellFromBytes c.toBytes = some c := by
  obtain ⟨flags, keySize, valueSize, keyType, valueType, key, value, pageId, offset⟩ := c
  obtain ⟨hks, hklt, hkt, hoff, hrest⟩ := h
  simp only at hks hklt hkt hoff hrest
  subst hks hkt hoff
  by_cases hf : flags = KV_CELL
  · simp only [if_pos hf] at hrest
    obtain ⟨hvs, hvlt, hpid⟩ := hrest
    subst hvs hpid
    have e2 : readU32 (be32i (key.length : Int) ++
        (be32i (value.length : Int) ++ (valueType :: (key ++ value)))) =
        some (key.length, be32i (value.length : Int) ++ (valueType :: (key ++ value))) := by
      rw [be32i, readU32_append, u32ofInt_natCast]
      have hx : key.length % 2 ^ 32 = key.length := Nat.mod_eq_of_lt hklt
      rw [hx, hx]
    have e3 : readU32 (be32i (value.length : Int) ++ (valueType :: (key ++ value))) =
        some (value.length, valueType :: (key ++ value)) := by
      rw [be32i, readU32_append, u32ofInt_natCast]
      have hx : value.length % 2 ^ 32 = value.length := Nat.mod_eq_of_lt hvlt
      rw [hx, hx]
    have e5 : goBufRead (key ++ value) key.length = some (key, value) :=
      goBufRead_append key value
    have e6 : goBufRead value value.length = some (value, []) := by
      have h := goBufRead_append value []
      rwa [List.append_nil] at h
    simp only [Cell.toBytes, if_pos hf, List.singleton_append, List.cons_append,
      List.nil_append, List.append_assoc]
    simp only [cellFromBytes, readU8, e2, e3, e5, e6, if_pos hf]
  · simp only [if_neg hf] at hrest
    obtain ⟨hvs, hvt, hval, hpid⟩ := hrest
    subst hvs hvt hval
    have e2 : readU32 (be32i (key.length : Int) ++ (key ++ be64 pageId)) =
        some (key.length, key ++ be64 pageId) := by
      rw [be32i, readU32_append, u32ofInt_natCast]
      have hx : key.length % 2 ^ 32 = key.length := Nat.mod_eq_of_lt hklt
      rw [hx, hx]
    have e3 : goBufRead (key ++ be64 pageId) key.length = some (key, be64 pageId) :=
      goBufRead_append key (be64 pageId)
    have e4 : readU64 (be64 pageId) = some (pageId, []) := by
      have h := readU64_append pageId []
      rw [List.append_nil] at h
      rwa [Nat.mod_eq_of_lt hpid] at h
    simp only [Cell.toBytes, if_neg hf, List.singleton_append, List.cons_append,
      List.nil_append, List.append_assoc, List.append_nil]
    simp only [cellFromBytes, readU8, e2, e3, e4, if_neg hf]

/-- C4 witness: the amended round trip at a concrete KV cell. -/
theorem C4_cell_roundtrip_witness :
    c4good.WellFormed ∧ cellFromBytes c4good.toBytes = some c4good :=
  ⟨by decide, C4_cell_roundtrip c4good (by decide)⟩

/-- C5 counterexample: on a fresh 40-byte page and a cell of serialized
    size 18, the claimed condition free-space - S < header-size +
    (slot-count + 1) * 4 holds (22 < 28), so the claim demands the
    page-full error; InsertCell instead succeeds (its test is only
    Cell.Size <= free-space), and the resulting page violates the
    invariant free-space >= header-size + slot-count * 4 (18 < 28). -/
theorem C5_insert_cex :
    ((mkPage 40).insertCell c5cell).2 = none ∧
    (mkPage 40).freeSpace - (c5cell.toBytes.length : Int) <
      (mkPage 40).headerSize + (((mkPage 40).slots.length : Int) + 1) * 4 ∧
    ((mkPage 40).insertCell c5cell).1.freeSpace <
      ((mkPage 40).insertCell c5cell).1.headerSize +
        (((mkPage 40).insertCell c5cell).1.slots.length : Int) * 4 := by decide

/-- C5 (amended): InsertCell returns the page-full error ("cell too large
    full") exactly when Cell.Size exceeds the free-space pointer - a test
    that ignores the header and the slot directory, so successful inserts
    need not keep free-space at or above header-size plus the slot
    directory.  (When the cell passes that test the insert either succeeds
    or fails with a bounds error, never with page-full.) -/
theorem C5_pageFull_iff (sp : SlottedPage) (c : Cell) :
    (sp.insertCell c).2 = some InsertErr.pageFull ↔ sp.freeSpace < c.size := by
  unfold SlottedPage.insertCell
  by_cases hfit : c.fitsInPage sp.freeSpace
  · rw [if_neg (not_not_intro hfit)]
    have hsz : ¬ sp.freeSpace < c.size := by
      unfold Cell.fitsInPage at hfit
      omega
    simp only [hsz, iff_false]
    intro h
    split at h
    · simp at h
    · split at h
      · simp at h
      · simp at h
  · rw [if_pos hfit]
    have hsz : sp.freeSpace < c.size := by
      unfold Cell.fitsInPage at hfit
      omega
    simp [hsz]

/-- C7 counterexample: a page already holding a cell with key 107 accepts
    a second cell with the same key - InsertCell returns no error (in
    particular no duplicate-key error), and the page changes (two cells,
    two slots). -/
theorem C7_duplicate_cex :
    sp7.hasKey [107] = true ∧
    (sp7.insertCell c7b).2 = none ∧
    (sp7.insertCell c7b).1 ≠ sp7 ∧
    (sp7.insertCell c7b).1.cellCount = 2 ∧
    (sp7.insertCell c7b).1.slots.length = 2 := by decide

/-- C7 (amended): inserting a cell whose key the page already contains is
    not screened: whenever the cell passes the free-space test and the
    writes stay in bounds, InsertCell succeeds and adds a second cell and
    slot for the duplicate key (findSlotPosition returns the exact-match
    slot, which is used as the insertion index, not rejected). -/
theorem C7_duplicate_not_screened (sp : SlottedPage) (c : Cell)
    (_hdup : sp.hasKey c.key = true)
    (hfit : c.size ≤ sp.freeSpace)
    (hoff : 0 ≤ sp.freeSpace - (c.toBytes.length : Int) - 4)
    (hfs : sp.freeSpace ≤ (sp.data.length : Int))
    (hhdr : 16 ≤ sp.data.length) :
    (sp.insertCell c).2 = none ∧
    (sp.insertCell c).1.cellCount = sp.cellCount + 1 ∧
    (sp.insertCell c).1.slots.length = sp.slots.length + 1 := by
  obtain ⟨d1, hd1⟩ : ∃ d1,
      pageSetBytes sp.data (sp.freeSpace - (c.toBytes.length : Int) - 4)
        c.toBytes = some d1 := by
    unfold pageSetBytes
    rw [if_pos]
    · exact ⟨_, rfl⟩
    · refine ⟨hoff, ?_⟩
      omega
  have hlen1 : d1.length = sp.data.length := length_pageSetBytes _ _ _ _ hd1
  obtain ⟨d2, hd2⟩ : ∃ d2, pageSetInt d1 8 (sp.cellCount + 1) = some d2 := by
    unfold pageSetInt
    rw [if_pos]
    · exact ⟨_, rfl⟩
    · refine ⟨by omega, ?_⟩
      rw [hlen1]
      omega
  have hlen2 : d2.length = d1.length := length_pageSetInt _ _ _ _ hd2
  obtain ⟨d3, hd3⟩ : ∃ d3,
      pageSetInt d2 12 (sp.freeSpace - (c.toBytes.length : Int) - 4) = some d3 := by
    unfold pageSetInt
    rw [if_pos]
    · exact ⟨_, rfl⟩
    · refine ⟨by omega, ?_⟩
      rw [hlen2, hlen1]
      omega
  have hfit2 : c.fitsInPage sp.freeSpace := hfit
  unfold SlottedPage.insertCell
  rw [if_neg (not_not_intro hfit2)]
  dsimp only
  rw [hd1]
  dsimp only
  rw [hd2]
  simp only [Option.getD_some]
  rw [hd3]
  dsimp only
  exact ⟨rfl, rfl, by simp [length_insertAt]⟩

/-- C7 witness: the amended statement applied at the concrete duplicate
    insertion of the counterexample. -/
theorem C7_duplicate_not_screened_witness :
    sp7.hasKey c7b.key = true ∧
    (sp7.insertCell c7b).2 = none ∧
    (sp7.insertCell c7b).1.cellCount = sp7.cellCount + 1 ∧
    (sp7.insertCell c7b).1.slots.length = sp7.slots.length + 1 := by
  have h := C7_duplicate_not_screened sp7 c7b (by decide) (by decide)
    (by decide) (by decide) (by decide)
  exact ⟨by decide, h.1, h.2.1, h.2.2⟩

/-- C6: sLock proceeds without waiting exactly when the entry is
    non-negative (absent counts as 0) and then stores
    max(entry, 0) + 1; xLock proceeds exactly when the entry is 0 (absent
    or stored) or 1 and then stores -1; unlock decrements an entry greater
    than 1 without broadcasting and otherwise (entry 1 or -1) removes the
    entry and broadcasts. -/
theorem C6_lock_table (m : LockMap) (blk : BlockId) :
    (sLockTry m blk ≠ .blocked ↔ 0 ≤ getLockVal m blk) ∧
    (0 ≤ getLockVal m blk →
      sLockTry m blk = .acquired (mapSet m blk (getLockVal m blk + 1)) ∧
      getLockVal (mapSet m blk (getLockVal m blk + 1)) blk =
        max (getLockVal m blk) 0 + 1) ∧
    (xLockTry m blk ≠ .blocked ↔
      (getLockVal m blk = 0 ∨ getLockVal m blk = 1)) ∧
    ((getLockVal m blk = 0 ∨ getLockVal m blk = 1) →
      xLockTry m blk = .acquired (mapSet m blk (-1)) ∧
      getLockVal (mapSet m blk (-1)) blk = -1) ∧
    (1 < getLockVal m blk →
      unlockStep m blk = (mapSet m blk (getLockVal m blk - 1), .decremented)) ∧
    ((getLockVal m blk = 1 ∨ getLockVal m blk = -1) →
      unlockStep m blk = (mapErase m blk, .removedBroadcast) ∧
      mapLookup (mapErase m blk) blk = none) := by
  refine ⟨?_, ?_, ?_, ?_, ?_, ?_⟩
  · unfold sLockTry hasXLock
    split
    · next hcond =>
        simp only [decide_eq_true_eq] at hcond
        constructor
        · intro hc
          exact absurd rfl hc
        · intro h0
          omega
    · next hcond =>
        simp only [decide_eq_true_eq] at hcond
        constructor
        · intro _
          omega
        · intro _ hc
          cases hc
  · intro h0
    refine ⟨?_, ?_⟩
    · unfold sLockTry hasXLock
      have hny : ¬ (decide (getLockVal m blk < 0) = true) := by
        simp only [decide_eq_true_eq]
        omega
      rw [if_neg hny]
    · rw [getLockVal_mapSet]
      omega
  · unfold xLockTry hasOtherLocks
    split
    · next hcond =>
        simp only [decide_eq_true_eq] at hcond
        constructor
        · intro hc
          exact absurd rfl hc
        · intro hor
          exact absurd hor (by omega)
    · next hcond =>
        simp only [decide_eq_true_eq] at hcond
        constructor
        · intro _
          omega
        · intro _ hc
          cases hc
  · intro h
    refine ⟨?_, ?_⟩
    · unfold xLockTry hasOtherLocks
      have hny : ¬ (decide (getLockVal m blk ≠ 0 ∧ getLockVal m blk ≠ 1) = true) := by
        simp only [decide_eq_true_eq]
        omega
      rw [if_neg hny]
    · rw [getLockVal_mapSet]
  · intro h
    simp only [unlockStep]
    rw [if_neg (by omega), if_pos (by omega)]
  · intro h
    refine ⟨?_, mapLookup_mapErase m blk⟩
    simp only [unlockStep]
    rw [if_neg (by omega), if_neg (by omega)]

/-- C6 witness: the lock-table transitions at concrete tables. -/
theorem C6_lock_table_witness :
    (sLockTry [(blkW, (1 : Int))] blkW =
      .acquired (mapSet [(blkW, (1 : Int))] blkW
        (getLockVal [(blkW, (1 : Int))] blkW + 1))) ∧
    (xLockTry [(blkW, (1 : Int))] blkW =
      .acquired (mapSet [(blkW, (1 : Int))] blkW (-1))) ∧
    (unlockStep [(blkW, (2 : Int))] blkW =
      (mapSet [(blkW, (2 : Int))] blkW
        (getLockVal [(blkW, (2 : Int))] blkW - 1), .decremented)) ∧
    (unlockStep [(blkW, (-1 : Int))] blkW =
      (mapErase [(blkW, (-1 : Int))] blkW, .removedBroadcast)) :=
  ⟨((C6_lock_table [(blkW, 1)] blkW).2.1 (by decide)).1,
   ((C6_lock_table [(blkW, 1)] blkW).2.2.2.1 (by decide)).1,
   (C6_lock_table [(blkW, 2)] blkW).2.2.2.2.1 (by decide),
   ((C6_lock_table [(blkW, -1)] blkW).2.2.2.2.2 (by decide)).1⟩

/-- C8: with both frames of a capacity-2 Clock occupied by unpinned,
    unreferenced buffers (each an immediate second-chance victim, as the
    direct evictLocked call confirms), allocating a buffer for a new block
    performs no eviction: it returns a fresh buffer (id 2) that sits in no
    frame, leaves the frame array unchanged, keeps both old pool entries
    and grows the pool past the configured capacity - because the buff
    variable in AllocateBufferForBlock is initialised with NewBuffer and
    the if buff == nil guard in front of evictLocked can never hold. -/
theorem C8_clock_allocate_no_evict :
    (clockAllocate clockFix blkC).2 = .ok 2 ∧
    (clockAllocate clockFix blkC).1.frames = clockFix.frames ∧
    (clockAllocate clockFix blkC).1.bufferPool =
      clockFix.bufferPool ++ [(blkC, 2)] ∧
    (∀ f ∈ (clockAllocate clockFix blkC).1.frames, f ≠ some 2) ∧
    clockFix.capacity < (clockAllocate clockFix blkC).1.bufferPool.length ∧
    (evictLocked clockFix).2 = .ok 0 := by decide

/-- C9: the transaction-id counter is not process-wide.  NewTransaction
    reads no shared state: the atomic fetch-add acts on the nextTxNum
    field of the struct being constructed (zero-initialised), so every
    created TransactionMgr has nextTxNum = 1, and the txtnum field handed
    to the RecoveryMgr is never assigned and stays 0.  Two transactions
    created one after another therefore observe the same ids, refuting
    distinctness and strict increase. -/
theorem C9_txid_constant :
    newTransaction.nextTxNum = 1 ∧ newTransaction.txtnum = 0 := by decide

/-- C10: unlocking a block with no lock-table entry returns the
    "attempting to unlock block which is not locked" error and leaves the
    table unchanged. -/
theorem C10_unlock_absent (m : LockMap) (blk : BlockId)
    (h : mapLookup m blk = none) :
    unlockStep m blk = (m, .notLockedError) := by
  have hv : getLockVal m blk = 0 := by
    unfold getLockVal
    rw [h]
    rfl
  unfold unlockStep
  rw [if_pos hv]

/-- C10 witness: unlock on the empty lock table. -/
theorem C10_unlock_absent_witness :
    mapLookup ([] : LockMap) blkW = none ∧
    unlockStep ([] : LockMap) blkW = ([], .notLockedError) :=
  ⟨rfl, C10_unlock_absent [] blkW rfl⟩

end UltraSQL

